import Mathlib

/-!
Shallow embedding of the RBAC layer of the `training-be` task-management
backend: the `RBACHelper` utility class (`src/common/utils/rbacHelper.ts`)
and the `AuthorizationSeeder` (`seedRolesAndPermissions`).

The TypeScript code runs its queries against a relational store through an
ORM. We model the store explicitly: a `Store` record holding the permission
rows, the role rows (with their many-to-many permission relation loaded) and
the user rows (with their many-to-many role relation loaded). Each async
method of `RBACHelper` becomes a pure function taking the store; the two
mutating methods return the updated store together with their boolean result.
`findOne` becomes `List.find?`, and `repository.save` of an existing row
becomes an id-keyed in-place replacement.
-/

namespace RBAC

/-- A permission row (`permission.entity.ts`): unique name, description. -/
structure Permission where
  id : String
  name : String
  description : String
deriving Repr, DecidableEq

/-- A role row (`role.entity.ts`) with its `permissions` relation loaded. -/
structure Role where
  id : String
  name : String
  description : String
  permissions : List Permission
deriving Repr, DecidableEq

/-- A user row (`user.entity.ts`) with its `role` relation loaded (the
    field is named `role` in the entity even though it is a list). -/
structure User where
  id : String
  email : String
  name : String
  password : String
  bio : String
  isActive : Bool
  role : List Role
deriving Repr, DecidableEq

/-- The relational store the ORM mediates: users, roles and permissions
    tables, plus a counter standing in for the database's id generator. -/
structure Store where
  users : List User
  roles : List Role
  permissions : List Permission
  nextId : Nat
deriving Repr, DecidableEq

/-- `userRepository.findOne({ where: { id: userId } })`. -/
def findUserById (s : Store) (userId : String) : Option User :=
  s.users.find? (fun u => u.id == userId)

/-- `roleRepository.findOne({ where: { name: roleName } })`. -/
def findRoleByName (s : Store) (roleName : String) : Option Role :=
  s.roles.find? (fun r => r.name == roleName)

/-- `userRepository.save(user)` on an existing row: replace the row with the
    matching id. -/
def saveUser (users : List User) (u : User) : List User :=
  users.map (fun x => if x.id == u.id then u else x)

/-- `permissions.add(name)` on a JS `Set` kept as an insertion-ordered
    duplicate-free list (which is exactly what `Array.from` later returns). -/
def addToSet (acc : List String) (x : String) : List String :=
  if acc.contains x then acc else acc ++ [x]

/-- `RBACHelper.getUserPermissions`: load the user with roles and their
    permissions, collect every permission name of every role into a `Set`,
    return it as an array. Missing user (or missing relation) gives `[]`. -/
def getUserPermissions (s : Store) (userId : String) : List String :=
  match findUserById s userId with
  | none => []
  | some user =>
    user.role.foldl
      (fun acc role => role.permissions.foldl (fun a p => addToSet a p.name) acc)
      []

/-- `RBACHelper.userHasPermission`. -/
def userHasPermission (s : Store) (userId permissionName : String) : Bool :=
  (getUserPermissions s userId).contains permissionName

/-- `RBACHelper.userHasAnyPermission`:
    `permissionNames.some((p) => userPermissions.includes(p))`. -/
def userHasAnyPermission (s : Store) (userId : String) (permissionNames : List String) : Bool :=
  let userPermissions := getUserPermissions s userId
  permissionNames.any (fun p => userPermissions.contains p)

/-- `RBACHelper.userHasAllPermissions`:
    `permissionNames.every((p) => userPermissions.includes(p))`. -/
def userHasAllPermissions (s : Store) (userId : String) (permissionNames : List String) : Bool :=
  let userPermissions := getUserPermissions s userId
  permissionNames.all (fun p => userPermissions.contains p)

/-- `RBACHelper.getUserRoles`: the names of the user's roles, `[]` when the
    user does not exist. -/
def getUserRoles (s : Store) (userId : String) : List String :=
  match findUserById s userId with
  | none => []
  | some user => user.role.map (fun r => r.name)

/-- `RBACHelper.userHasRole`. -/
def userHasRole (s : Store) (userId roleName : String) : Bool :=
  (getUserRoles s userId).contains roleName

/-- `RBACHelper.userHasAnyRole`. -/
def userHasAnyRole (s : Store) (userId : String) (roleNames : List String) : Bool :=
  let userRoles := getUserRoles s userId
  roleNames.any (fun r => userRoles.contains r)

/-- `RBACHelper.assignRoleToUser`: look up the user (by id) and the role
    (by name); fail when either is missing; succeed as a no-op when the user
    already holds a role with the same id; otherwise push the role and save. -/
def assignRoleToUser (s : Store) (userId roleName : String) : Bool × Store :=
  match findUserById s userId, findRoleByName s roleName with
  | some user, some role =>
    if user.role.any (fun r => r.id == role.id) then
      (true, s)
    else
      let user' := { user with role := user.role ++ [role] }
      (true, { s with users := saveUser s.users user' })
  | _, _ => (false, s)

/-- `RBACHelper.removeRoleFromUser`: filter out every role with the given
    name; save and return true when the list shrank, otherwise false. -/
def removeRoleFromUser (s : Store) (userId roleName : String) : Bool × Store :=
  match findUserById s userId with
  | none => (false, s)
  | some user =>
    let newRoles := user.role.filter (fun r => r.name != roleName)
    if newRoles.length < user.role.length then
      let user' := { user with role := newRoles }
      (true, { s with users := saveUser s.users user' })
    else
      (false, s)

/-- `RBACHelper.getRolePermissions`: the permission names of the role with
    the given name, `[]` when absent. -/
def getRolePermissions (s : Store) (roleName : String) : List String :=
  match findRoleByName s roleName with
  | none => []
  | some role => role.permissions.map (fun p => p.name)

/-- `RBACHelper.userCanAccessResource`: ownership short-circuit, otherwise
    `userHasAnyPermission`. -/
def userCanAccessResource (s : Store) (userId resourceOwnerId : String)
    (requiredPermissions : List String) : Bool :=
  if userId == resourceOwnerId then
    true
  else
    userHasAnyPermission s userId requiredPermissions

/-- The fixed role-name → hierarchy-level table of `getRoleHierarchy`. -/
def hierarchyTable : List (String × Nat) :=
  [("admin", 100), ("workspace_admin", 80), ("board_owner", 60),
   ("board_admin", 50), ("board_member", 30), ("board_observer", 20),
   ("user", 10), ("guest", 5)]

/-- `RBACHelper.getRoleHierarchy`: `hierarchy[roleName] || 0` — table lookup
    with silent default 0 (every table value is nonzero, so `|| 0` only fires
    on absent keys). -/
def getRoleHierarchy (roleName : String) : Nat :=
  (hierarchyTable.lookup roleName).getD 0

/-- `RBACHelper.userHasMinimumRoleLevel`: some role of the user reaches the
    level of the minimum role. -/
def userHasMinimumRoleLevel (s : Store) (userId minimumRole : String) : Bool :=
  let userRoles := getUserRoles s userId
  let minimumLevel := getRoleHierarchy minimumRole
  userRoles.any (fun role => minimumLevel ≤ getRoleHierarchy role)

/-! ## The `AuthorizationSeeder` (`seedRolesAndPermissions`)

The seeder runs three phases over the store: create-if-absent for every
permission of the catalog, create-or-overwrite for every role of the catalog
(a role's permission set is replaced by the freshly filtered list), and
create-or-reassign for the sample users. The bcrypt password hash, used only
when a sample user is first created, is passed in as an abstract function.
The database's uuid generation is modelled by the store's `nextId` counter. -/

/-- `needle` occurs as a contiguous run inside the character list. -/
def charsInfix (needle : List Char) : List Char → Bool
  | [] => needle.isEmpty
  | c :: rest => needle.isPrefixOf (c :: rest) || charsInfix needle rest

/-- JS `hay.includes(needle)`: substring containment. -/
def jsIncludes (hay needle : String) : Bool :=
  charsInfix needle.toList hay.toList

/-- Draw a fresh row id from the store's id generator. -/
def freshId (s : Store) : String × Store :=
  ("uuid-" ++ toString s.nextId, { s with nextId := s.nextId + 1 })

/-- One entry of the seeder's `permissionsData`. -/
structure PermSeed where
  name : String
  description : String

/-- The seeder's `permissionsData` catalog, verbatim. -/
def permissionsData : List PermSeed :=
  [⟨"boards:create", "Create new boards"⟩,
   ⟨"boards:read", "View boards and their content"⟩,
   ⟨"boards:update", "Edit board details and settings"⟩,
   ⟨"boards:delete", "Delete boards"⟩,
   ⟨"boards:manage", "Full board management including member management"⟩,
   ⟨"lists:create", "Create new lists in boards"⟩,
   ⟨"lists:read", "View lists"⟩,
   ⟨"lists:update", "Edit list details and reorder lists"⟩,
   ⟨"lists:delete", "Delete lists"⟩,
   ⟨"lists:archive", "Archive/unarchive lists"⟩,
   ⟨"cards:create", "Create new cards"⟩,
   ⟨"cards:read", "View cards and their details"⟩,
   ⟨"cards:update", "Edit card content, due dates, labels"⟩,
   ⟨"cards:delete", "Delete cards"⟩,
   ⟨"cards:assign", "Assign/unassign members to cards"⟩,
   ⟨"cards:move", "Move cards between lists and boards"⟩,
   ⟨"cards:archive", "Archive/unarchive cards"⟩,
   ⟨"comments:create", "Add comments to cards"⟩,
   ⟨"comments:read", "View comments"⟩,
   ⟨"comments:update", "Edit own comments"⟩,
   ⟨"comments:delete", "Delete own comments"⟩,
   ⟨"comments:moderate", "Delete any comments"⟩,
   ⟨"members:invite", "Invite new members to boards"⟩,
   ⟨"members:remove", "Remove members from boards"⟩,
   ⟨"members:read", "View board members"⟩,
   ⟨"members:manage", "Manage member roles and permissions"⟩,
   ⟨"labels:create", "Create new labels"⟩,
   ⟨"labels:read", "View labels"⟩,
   ⟨"labels:update", "Edit label names and colors"⟩,
   ⟨"labels:delete", "Delete labels"⟩,
   ⟨"checklists:create", "Create checklists in cards"⟩,
   ⟨"checklists:read", "View checklists"⟩,
   ⟨"checklists:update", "Edit checklist items and mark as complete"⟩,
   ⟨"checklists:delete", "Delete checklists"⟩,
   ⟨"attachments:create", "Upload attachments to cards"⟩,
   ⟨"attachments:read", "View and download attachments"⟩,
   ⟨"attachments:delete", "Delete attachments"⟩,
   ⟨"notifications:read", "View notifications"⟩,
   ⟨"notifications:manage", "Manage notification settings"⟩,
   ⟨"workspaces:create", "Create new workspaces"⟩,
   ⟨"workspaces:read", "View workspace details"⟩,
   ⟨"workspaces:update", "Edit workspace settings"⟩,
   ⟨"workspaces:delete", "Delete workspaces"⟩,
   ⟨"workspaces:manage", "Full workspace administration"⟩,
   ⟨"users:read", "View user profiles"⟩,
   ⟨"users:update", "Edit own profile"⟩,
   ⟨"users:manage", "Manage all users (admin only)"⟩,
   ⟨"users:delete", "Delete user accounts (admin only)"⟩,
   ⟨"reports:read", "View reports and analytics"⟩,
   ⟨"reports:export", "Export reports and data"⟩,
   ⟨"system:admin", "Full system administration access"⟩,
   ⟨"system:backup", "Perform system backups"⟩,
   ⟨"system:maintenance", "Perform system maintenance"⟩]

/-- Permission-catalog phase: find the permission by name; when absent create
    and save it; either way push it onto `createdPermissions`. -/
def seedPermissionStep (acc : Store × List Permission) (pd : PermSeed) :
    Store × List Permission :=
  let (s, created) := acc
  match s.permissions.find? (fun p => p.name == pd.name) with
  | some permission => (s, created ++ [permission])
  | none =>
    let (pid, s') := freshId s
    let permission : Permission := ⟨pid, pd.name, pd.description⟩
    ({ s' with permissions := s'.permissions ++ [permission] },
     created ++ [permission])

/-- One entry of the seeder's `rolesData`: name, description, and the
    predicate its `createdPermissions.filter(...)` call applies. -/
structure RoleSeed where
  name : String
  description : String
  pick : Permission → Bool

/-- `admin` role filter. -/
def adminPick (p : Permission) : Bool :=
  jsIncludes p.name "system:" || jsIncludes p.name "users:manage" ||
  jsIncludes p.name "users:delete" || jsIncludes p.name "workspaces:" ||
  jsIncludes p.name "reports:" || jsIncludes p.name "boards:" ||
  jsIncludes p.name "lists:" || jsIncludes p.name "cards:" ||
  jsIncludes p.name "comments:" || jsIncludes p.name "members:" ||
  jsIncludes p.name "labels:" || jsIncludes p.name "checklists:" ||
  jsIncludes p.name "attachments:" || jsIncludes p.name "notifications:"

/-- `workspace_admin` role filter. -/
def workspaceAdminPick (p : Permission) : Bool :=
  jsIncludes p.name "workspaces:" || jsIncludes p.name "boards:" ||
  jsIncludes p.name "lists:" || jsIncludes p.name "cards:" ||
  jsIncludes p.name "comments:" || jsIncludes p.name "members:" ||
  jsIncludes p.name "labels:" || jsIncludes p.name "checklists:" ||
  jsIncludes p.name "attachments:" || jsIncludes p.name "notifications:" ||
  jsIncludes p.name "reports:read" || jsIncludes p.name "users:read" ||
  jsIncludes p.name "users:update"

/-- `board_owner` role filter. -/
def boardOwnerPick (p : Permission) : Bool :=
  jsIncludes p.name "boards:" || jsIncludes p.name "lists:" ||
  jsIncludes p.name "cards:" || jsIncludes p.name "comments:" ||
  jsIncludes p.name "members:" || jsIncludes p.name "labels:" ||
  jsIncludes p.name "checklists:" || jsIncludes p.name "attachments:" ||
  jsIncludes p.name "notifications:" || jsIncludes p.name "users:read" ||
  jsIncludes p.name "users:update"

/-- `board_admin` role filter. -/
def boardAdminPick (p : Permission) : Bool :=
  p.name == "boards:read" || p.name == "boards:update" ||
  jsIncludes p.name "lists:" || jsIncludes p.name "cards:" ||
  jsIncludes p.name "comments:" || p.name == "members:invite" ||
  p.name == "members:remove" || p.name == "members:read" ||
  jsIncludes p.name "labels:" || jsIncludes p.name "checklists:" ||
  jsIncludes p.name "attachments:" || jsIncludes p.name "notifications:" ||
  jsIncludes p.name "users:read" || jsIncludes p.name "users:update"

/-- `board_member` role filter. -/
def boardMemberPick (p : Permission) : Bool :=
  p.name == "boards:read" || p.name == "lists:read" ||
  p.name == "lists:create" || p.name == "lists:update" ||
  jsIncludes p.name "cards:" || p.name == "comments:create" ||
  p.name == "comments:read" || p.name == "comments:update" ||
  p.name == "comments:delete" || p.name == "members:read" ||
  p.name == "labels:read" || p.name == "labels:create" ||
  jsIncludes p.name "checklists:" || jsIncludes p.name "attachments:" ||
  jsIncludes p.name "notifications:" || jsIncludes p.name "users:read" ||
  jsIncludes p.name "users:update"

/-- `board_observer` role filter. -/
def boardObserverPick (p : Permission) : Bool :=
  p.name == "boards:read" || p.name == "lists:read" ||
  p.name == "cards:read" || p.name == "comments:read" ||
  p.name == "members:read" || p.name == "labels:read" ||
  p.name == "checklists:read" || p.name == "attachments:read" ||
  p.name == "notifications:read" || p.name == "users:read" ||
  p.name == "users:update"

/-- `user` role filter. -/
def userPick (p : Permission) : Bool :=
  p.name == "boards:create" || p.name == "boards:read" ||
  p.name == "workspaces:create" || p.name == "workspaces:read" ||
  p.name == "users:read" || p.name == "users:update" ||
  p.name == "notifications:read" || p.name == "notifications:manage"

/-- `guest` role filter. -/
def guestPick (p : Permission) : Bool :=
  p.name == "boards:read" || p.name == "lists:read" ||
  p.name == "cards:read" || p.name == "comments:read" ||
  p.name == "members:read" || p.name == "labels:read" ||
  p.name == "checklists:read" || p.name == "attachments:read" ||
  p.name == "users:read"

/-- The seeder's `rolesData` catalog. -/
def rolesData : List RoleSeed :=
  [⟨"admin", "System Administrator - Full access to all features", adminPick⟩,
   ⟨"workspace_admin", "Workspace Administrator - Full access within workspace",
    workspaceAdminPick⟩,
   ⟨"board_owner", "Board Owner - Full access to owned boards", boardOwnerPick⟩,
   ⟨"board_admin", "Board Administrator - Manage board content and members",
    boardAdminPick⟩,
   ⟨"board_member", "Board Member - Create and edit content", boardMemberPick⟩,
   ⟨"board_observer", "Board Observer - View only access", boardObserverPick⟩,
   ⟨"user", "Regular User - Basic user capabilities", userPick⟩,
   ⟨"guest", "Guest User - Limited access to specific boards", guestPick⟩]

/-- Role-catalog phase: find the role by name; when absent create it with the
    filtered permissions; when present overwrite its permission set and save;
    either way push the (possibly updated) role onto `createdRoles`. -/
def seedRoleStep (createdPermissions : List Permission)
    (acc : Store × List Role) (rd : RoleSeed) : Store × List Role :=
  let (s, created) := acc
  let perms := createdPermissions.filter rd.pick
  match s.roles.find? (fun r => r.name == rd.name) with
  | some role =>
    let role' := { role with permissions := perms }
    ({ s with roles := s.roles.map (fun r => if r.id == role'.id then role' else r) },
     created ++ [role'])
  | none =>
    let (rid, s') := freshId s
    let role : Role := ⟨rid, rd.name, rd.description, perms⟩
    ({ s' with roles := s'.roles ++ [role] }, created ++ [role])

/-- One entry of the seeder's `usersData`. -/
structure UserSeed where
  email : String
  name : String
  password : String
  bio : String
  isActive : Bool
  roleName : String

/-- The seeder's `usersData` sample accounts. -/
def usersData : List UserSeed :=
  [⟨"admin@trello.com", "System Administrator", "admin123",
    "System administrator with full access", true, "admin"⟩,
   ⟨"workspace.admin@trello.com", "Workspace Admin", "workspace123",
    "Workspace administrator", true, "workspace_admin"⟩,
   ⟨"board.owner@trello.com", "Board Owner", "board123",
    "Board owner and manager", true, "board_owner"⟩,
   ⟨"member@trello.com", "Team Member", "member123",
    "Active team member", true, "board_member"⟩,
   ⟨"observer@trello.com", "Observer", "observer123",
    "Read-only observer", true, "board_observer"⟩,
   ⟨"user@trello.com", "Regular User", "user123",
    "Regular user account", true, "user"⟩,
   ⟨"guest@trello.com", "Guest User", "guest123",
    "Guest with limited access", true, "guest"⟩]

/-- Sample-user phase: find the user by email and the role among
    `createdRoles`; create the user (hashing the password) when absent and the
    role exists; reassign the role when the user exists; otherwise skip. -/
def seedUserStep (hash : String → String) (createdRoles : List Role)
    (s : Store) (ud : UserSeed) : Store :=
  match s.users.find? (fun u => u.email == ud.email),
        createdRoles.find? (fun r => r.name == ud.roleName) with
  | none, some role =>
    let (uid, s') := freshId s
    let user : User :=
      ⟨uid, ud.email, ud.name, hash ud.password, ud.bio, ud.isActive, [role]⟩
    { s' with users := s'.users ++ [user] }
  | some user, some role =>
    let user' := { user with role := [role] }
    { s with users := saveUser s.users user' }
  | _, none => s

/-- The seeder's first loop: walk `permissionsData`, returning the updated
    store and the `createdPermissions` array. -/
def seedPermissionsPhase (s : Store) : Store × List Permission :=
  permissionsData.foldl seedPermissionStep (s, [])

/-- The seeder's second loop: walk `rolesData`, returning the updated store
    and the `createdRoles` array. -/
def seedRolesPhase (createdPermissions : List Permission) (s : Store) :
    Store × List Role :=
  rolesData.foldl (seedRoleStep createdPermissions) (s, [])

/-- The seeder's third loop: walk `usersData`. -/
def seedUsersPhase (hash : String → String) (createdRoles : List Role)
    (s : Store) : Store :=
  usersData.foldl (seedUserStep hash createdRoles) s

/-- `AuthorizationSeeder.seedRolesAndPermissions`: the three phases in order.
    `hash` abstracts `bcrypt.hash(password, 10)`. -/
def seedRolesAndPermissions (hash : String → String) (s : Store) : Store :=
  let r1 := seedPermissionsPhase s
  let r2 := seedRolesPhase r1.2 r1.1
  seedUsersPhase hash r2.2 r2.1

/-- The empty store (fresh database). -/
def emptyStore : Store := ⟨[], [], [], 0⟩

/-! ## Theorems -/

/-- Lookup misses every entry whose key differs from the query. -/
lemma lookup_hierarchyTable_eq_none (n : String)
    (h : n ∉ hierarchyTable.map Prod.fst) : hierarchyTable.lookup n = none := by
  simp only [hierarchyTable, List.map, List.mem_cons, List.not_mem_nil, or_false,
    not_or] at h
  obtain ⟨h1, h2, h3, h4, h5, h6, h7, h8⟩ := h
  have b1 : (n == "admin") = false := by simp [h1]
  have b2 : (n == "workspace_admin") = false := by simp [h2]
  have b3 : (n == "board_owner") = false := by simp [h3]
  have b4 : (n == "board_admin") = false := by simp [h4]
  have b5 : (n == "board_member") = false := by simp [h5]
  have b6 : (n == "board_observer") = false := by simp [h6]
  have b7 : (n == "user") = false := by simp [h7]
  have b8 : (n == "guest") = false := by simp [h8]
  simp [hierarchyTable, List.lookup, b1, b2, b3, b4, b5, b6, b7, b8]

/-- C1: `userCanAccessResource` with `userId = resourceOwnerId` is `true` for
    every store and permission list (so even for permissions the user does not
    hold), and with `userId ≠ resourceOwnerId` it equals
    `userHasAnyPermission userId requiredPermissions` exactly. -/
theorem canAccessResource_ownership (s : Store) (userId resourceOwnerId : String)
    (requiredPermissions : List String) :
    (userId = resourceOwnerId →
      userCanAccessResource s userId resourceOwnerId requiredPermissions = true) ∧
    (userId ≠ resourceOwnerId →
      userCanAccessResource s userId resourceOwnerId requiredPermissions =
        userHasAnyPermission s userId requiredPermissions) := by
  constructor
  · intro h
    simp [userCanAccessResource, h]
  · intro h
    simp [userCanAccessResource, h]

/-- Witness for C1 at a concrete store and inputs. -/
theorem canAccessResource_ownership_witness :
    userCanAccessResource emptyStore "alice" "alice" ["boards:delete"] = true ∧
    userCanAccessResource emptyStore "alice" "bob" ["boards:delete"] =
      userHasAnyPermission emptyStore "alice" ["boards:delete"] :=
  ⟨(canAccessResource_ownership emptyStore "alice" "alice" ["boards:delete"]).1 rfl,
   (canAccessResource_ownership emptyStore "alice" "bob" ["boards:delete"]).2
     (by decide)⟩

/-- C2: with an empty requested permission set, `userHasAllPermissions` is
    `true` and `userHasAnyPermission` is `false`, for every store and user
    (including unknown users and users with no roles). -/
theorem emptyRequestedSet_policy (s : Store) (userId : String) :
    userHasAllPermissions s userId [] = true ∧
    userHasAnyPermission s userId [] = false :=
  ⟨rfl, rfl⟩

/-- C5: `getRoleHierarchy` realises exactly the fixed table, and yields 0 for
    every name absent from the table. -/
theorem getRoleHierarchy_table (n : String) :
    getRoleHierarchy "admin" = 100 ∧
    getRoleHierarchy "workspace_admin" = 80 ∧
    getRoleHierarchy "board_owner" = 60 ∧
    getRoleHierarchy "board_admin" = 50 ∧
    getRoleHierarchy "board_member" = 30 ∧
    getRoleHierarchy "board_observer" = 20 ∧
    getRoleHierarchy "user" = 10 ∧
    getRoleHierarchy "guest" = 5 ∧
    (n ∉ hierarchyTable.map Prod.fst → getRoleHierarchy n = 0) := by
  refine ⟨by decide, by decide, by decide, by decide, by decide, by decide,
    by decide, by decide, ?_⟩
  intro h
  unfold getRoleHierarchy
  rw [lookup_hierarchyTable_eq_none n h]
  rfl

/-- Witness for C5 at a name absent from the table. -/
theorem getRoleHierarchy_table_witness :
    ("moderator" ∉ hierarchyTable.map Prod.fst) ∧
    getRoleHierarchy "moderator" = 0 :=
  ⟨by decide, (getRoleHierarchy_table "moderator").2.2.2.2.2.2.2.2 (by decide)⟩

/-- C4: `userHasMinimumRoleLevel` is true iff some role of the user reaches
    the minimum role's level; for `board_member` the threshold is level 30;
    a user with zero roles always gets `false`. -/
theorem hasMinimumRoleLevel_spec (s : Store) (userId minimumRole : String) :
    (userHasMinimumRoleLevel s userId minimumRole = true ↔
      ∃ r ∈ getUserRoles s userId,
        getRoleHierarchy minimumRole ≤ getRoleHierarchy r) ∧
    (userHasMinimumRoleLevel s userId "board_member" = true ↔
      ∃ r ∈ getUserRoles s userId, 30 ≤ getRoleHierarchy r) ∧
    (getUserRoles s userId = [] →
      userHasMinimumRoleLevel s userId minimumRole = false) := by
  have hbm : getRoleHierarchy "board_member" = 30 := by decide
  refine ⟨?_, ?_, ?_⟩
  · simp [userHasMinimumRoleLevel, List.any_eq_true]
  · simp [userHasMinimumRoleLevel, List.any_eq_true, hbm]
  · intro h
    simp [userHasMinimumRoleLevel, h]

/-- Witness for C4: a roleless identifier in the empty store gets `false`. -/
theorem hasMinimumRoleLevel_spec_witness :
    userHasMinimumRoleLevel emptyStore "nobody" "board_member" = false :=
  (hasMinimumRoleLevel_spec emptyStore "nobody" "board_member").2.2 rfl

/-- C10: when the minimum role name is absent from the hierarchy table, its
    level defaults to 0 and every role (known or not) reaches it, so the check
    passes for exactly the users holding at least one role. -/
theorem unknownMinimumRole_grants (s : Store) (userId minimumRole : String)
    (h : minimumRole ∉ hierarchyTable.map Prod.fst) :
    (userHasMinimumRoleLevel s userId minimumRole = true ↔
      getUserRoles s userId ≠ []) := by
  have h0 : getRoleHierarchy minimumRole = 0 := by
    unfold getRoleHierarchy
    rw [lookup_hierarchyTable_eq_none minimumRole h]
    rfl
  simp only [userHasMinimumRoleLevel, h0]
  cases getUserRoles s userId with
  | nil => simp
  | cons a l => simp

/-- A store holding one user whose only role carries a name outside the
    hierarchy table. -/
def unknownRoleStore : Store :=
  let bananaRole : Role := ⟨"r-ban", "banana_role", "", []⟩
  ⟨[⟨"u1", "u1@x.com", "U One", "pw", "", true, [bananaRole]⟩], [bananaRole], [], 0⟩

/-- Witness for C10: a misspelled minimum role grants access to a user whose
    only role is itself unknown to the table. -/
theorem unknownMinimumRole_grants_witness :
    userHasMinimumRoleLevel unknownRoleStore "u1" "boardmember" = true ↔
      getUserRoles unknownRoleStore "u1" ≠ [] :=
  unknownMinimumRole_grants unknownRoleStore "u1" "boardmember" (by decide)

/-- Membership in the JS-`Set` insertion. -/
lemma mem_addToSet (acc : List String) (x y : String) :
    y ∈ addToSet acc x ↔ y ∈ acc ∨ y = x := by
  by_cases h : acc.contains x = true
  · have hx : x ∈ acc := by simpa using h
    simp only [addToSet, if_pos h]
    constructor
    · exact Or.inl
    · rintro (hy | rfl)
      · exact hy
      · exact hx
  · simp only [addToSet, if_neg h]
    simp

/-- The JS-`Set` insertion keeps the list duplicate-free. -/
lemma nodup_addToSet (acc : List String) (x : String) (h : acc.Nodup) :
    (addToSet acc x).Nodup := by
  by_cases hc : acc.contains x = true
  · simp only [addToSet, if_pos hc]
    exact h
  · have hx : x ∉ acc := by simpa using hc
    simp only [addToSet, if_neg hc]
    simp [List.nodup_append, h, hx]

/-- Membership after folding one role's permission names into the set. -/
lemma mem_permNamesFold (l : List Permission) (acc : List String) (y : String) :
    y ∈ l.foldl (fun a p => addToSet a p.name) acc ↔
      y ∈ acc ∨ y ∈ l.map Permission.name := by
  induction l generalizing acc with
  | nil => simp
  | cons p l ih => simp [List.foldl_cons, ih, mem_addToSet, or_assoc]

/-- Folding permission names preserves duplicate-freedom. -/
lemma nodup_permNamesFold (l : List Permission) (acc : List String)
    (h : acc.Nodup) : (l.foldl (fun a p => addToSet a p.name) acc).Nodup := by
  induction l generalizing acc with
  | nil => exact h
  | cons p l ih => exact ih _ (nodup_addToSet _ _ h)

/-- Membership after folding all roles' permission names into the set. -/
lemma mem_rolesFold (rs : List Role) (acc : List String) (y : String) :
    y ∈ rs.foldl
        (fun acc role => role.permissions.foldl (fun a p => addToSet a p.name) acc)
        acc ↔
      y ∈ acc ∨ ∃ r ∈ rs, y ∈ r.permissions.map Permission.name := by
  induction rs generalizing acc with
  | nil => simp
  | cons r rs ih => simp [List.foldl_cons, ih, mem_permNamesFold, or_assoc]

/-- Folding all roles preserves duplicate-freedom. -/
lemma nodup_rolesFold (rs : List Role) (acc : List String) (h : acc.Nodup) :
    (rs.foldl
        (fun acc role => role.permissions.foldl (fun a p => addToSet a p.name) acc)
        acc).Nodup := by
  induction rs generalizing acc with
  | nil => exact h
  | cons r rs ih => exact ih _ (nodup_permNamesFold _ _ h)

/-- C3: for a user holding exactly the roles `r₁, r₂` (stored under their
    names), `getUserPermissions` is, as a set, the union of
    `getRolePermissions r₁.name` and `getRolePermissions r₂.name`; it never
    contains duplicates; and an unknown user or a user with zero roles gets
    the empty collection rather than an error. -/
theorem getUserPermissions_union (s : Store) (userId : String) :
    (∀ u r₁ r₂, findUserById s userId = some u → u.role = [r₁, r₂] →
      findRoleByName s r₁.name = some r₁ → findRoleByName s r₂.name = some r₂ →
      ∀ x, x ∈ getUserPermissions s userId ↔
        x ∈ getRolePermissions s r₁.name ∨ x ∈ getRolePermissions s r₂.name) ∧
    (getUserPermissions s userId).Nodup ∧
    (findUserById s userId = none → getUserPermissions s userId = []) ∧
    (∀ u, findUserById s userId = some u → u.role = [] →
      getUserPermissions s userId = []) := by
  refine ⟨?_, ?_, ?_, ?_⟩
  · intro u r₁ r₂ hu hroles h1 h2 x
    simp only [getUserPermissions, hu, hroles]
    rw [mem_rolesFold]
    simp [getRolePermissions, h1, h2]
  · cases hfind : findUserById s userId with
    | none => simp [getUserPermissions, hfind]
    | some u =>
      simp only [getUserPermissions, hfind]
      exact nodup_rolesFold _ _ List.nodup_nil
  · intro h
    simp [getUserPermissions, h]
  · intro u hu hr
    simp [getUserPermissions, hu, hr]

/-- Two overlapping roles for the C3 witness. -/
def wRoleA : Role :=
  ⟨"r-a", "roleA", "", [⟨"pp1", "alpha:read", ""⟩, ⟨"pp2", "beta:read", ""⟩]⟩

/-- Second witness role, sharing one permission with `wRoleA`. -/
def wRoleB : Role :=
  ⟨"r-b", "roleB", "", [⟨"pp2", "beta:read", ""⟩, ⟨"pp3", "gamma:read", ""⟩]⟩

/-- A store with one user holding the two witness roles. -/
def twoRoleStore : Store :=
  ⟨[⟨"u3", "u3@x.com", "U Three", "pw", "", true, [wRoleA, wRoleB]⟩],
   [wRoleA, wRoleB], [], 0⟩

/-- Witness for C3 at the two-role store (membership instantiated at the
    shared permission name) and at an unknown user id. -/
theorem getUserPermissions_union_witness :
    ("beta:read" ∈ getUserPermissions twoRoleStore "u3" ↔
      "beta:read" ∈ getRolePermissions twoRoleStore "roleA" ∨
      "beta:read" ∈ getRolePermissions twoRoleStore "roleB") ∧
    (getUserPermissions twoRoleStore "u3").Nodup ∧
    getUserPermissions twoRoleStore "nobody" = [] :=
  ⟨(getUserPermissions_union twoRoleStore "u3").1
      ⟨"u3", "u3@x.com", "U Three", "pw", "", true, [wRoleA, wRoleB]⟩
      wRoleA wRoleB (by decide) rfl (by decide) (by decide) "beta:read",
   (getUserPermissions_union twoRoleStore "u3").2.1,
   (getUserPermissions_union twoRoleStore "nobody").2.2.1 (by decide)⟩

/-- Saving an updated copy of the found user makes the lookup return the
    updated copy (earlier rows do not match the id, so none is replaced). -/
lemma find?_saveUser (users : List User) (u u' : User) (userId : String)
    (hfind : users.find? (fun x => x.id == userId) = some u)
    (hid : u'.id = u.id) :
    (saveUser users u').find? (fun x => x.id == userId) = some u' := by
  induction users with
  | nil => simp at hfind
  | cons a l ih =>
    by_cases ha : (a.id == userId) = true
    · rw [@List.find?_cons_of_pos User (fun x => x.id == userId) a l ha] at hfind
      injection hfind with h1
      subst h1
      have hau : (a.id == u'.id) = true := by simp [hid]
      have hu' : (u'.id == userId) = true := by
        rw [hid]
        exact ha
      show List.find? (fun x => x.id == userId)
          (List.map (fun x => if x.id == u'.id then u' else x) (a :: l)) = some u'
      rw [List.map_cons, if_pos hau]
      exact @List.find?_cons_of_pos User (fun x => x.id == userId) u' _ hu'
    · rw [@List.find?_cons_of_neg User (fun x => x.id == userId) a l ha] at hfind
      have huid : u.id = userId := by simpa using List.find?_some hfind
      have hau : ¬(a.id == u'.id) = true := by
        rw [hid, huid]
        exact ha
      show List.find? (fun x => x.id == userId)
          (List.map (fun x => if x.id == u'.id then u' else x) (a :: l)) = some u'
      rw [List.map_cons, if_neg hau]
      rw [@List.find?_cons_of_neg User (fun x => x.id == userId) a _ ha]
      exact ih hfind

/-- C6: `assignRoleToUser` fails (returning `false`, store untouched) when
    the user or the role is missing; succeeds as a no-op when the user
    already holds the role; otherwise attaches the role, and a second call is
    a no-op returning `true` that leaves the user with exactly one membership
    in that role. -/
theorem assignRole_idempotent (s : Store) (userId roleName : String) :
    ((findUserById s userId = none ∨ findRoleByName s roleName = none) →
      assignRoleToUser s userId roleName = (false, s)) ∧
    (∀ u role, findUserById s userId = some u →
      findRoleByName s roleName = some role →
      u.role.any (fun r => r.id == role.id) = true →
      assignRoleToUser s userId roleName = (true, s)) ∧
    (∀ u role, findUserById s userId = some u →
      findRoleByName s roleName = some role →
      u.role.any (fun r => r.id == role.id) = false →
      (assignRoleToUser s userId roleName).1 = true ∧
      (∃ u', findUserById (assignRoleToUser s userId roleName).2 userId = some u' ∧
        u'.role = u.role ++ [role] ∧
        (u'.role.filter (fun r => r.id == role.id)).length = 1) ∧
      assignRoleToUser (assignRoleToUser s userId roleName).2 userId roleName =
        (true, (assignRoleToUser s userId roleName).2)) := by
  refine ⟨?_, ?_, ?_⟩
  · rintro (h | h)
    · cases hr : findRoleByName s roleName <;>
        simp [assignRoleToUser, h, hr]
    · cases hu : findUserById s userId <;>
        simp [assignRoleToUser, h, hu]
  · intro u role hu hrole hany
    simp [assignRoleToUser, hu, hrole, hany]
  · intro u role hu hrole hany
    have h1 : assignRoleToUser s userId roleName =
        (true, { s with users := saveUser s.users { u with role := u.role ++ [role] } }) := by
      simp [assignRoleToUser, hu, hrole, hany]
    have hfind' :
        findUserById (assignRoleToUser s userId roleName).2 userId =
          some { u with role := u.role ++ [role] } := by
      rw [h1]
      exact find?_saveUser s.users u _ userId hu rfl
    refine ⟨by rw [h1], ⟨{ u with role := u.role ++ [role] }, hfind', rfl, ?_⟩, ?_⟩
    · have hnil : u.role.filter (fun r => r.id == role.id) = [] :=
        List.filter_eq_nil_iff.mpr (List.any_eq_false.mp hany)
      simp [List.filter_append, hnil]
    · have hrole' : findRoleByName (assignRoleToUser s userId roleName).2 roleName =
          some role := by
        rw [h1]
        exact hrole
      have hany' : ({ u with role := u.role ++ [role] } : User).role.any
          (fun r => r.id == role.id) = true := by
        simp [List.any_append]
      rw [h1]
      rw [h1] at hfind' hrole'
      simp [assignRoleToUser, hfind', hrole', hany']

/-- Witness for C6: on a concrete store, assigning a missing role fails, and
    assigning `admin` twice leaves one membership. -/
theorem assignRole_idempotent_witness :
    (assignRoleToUser twoRoleStore "u3" "missing_role" = (false, twoRoleStore)) ∧
    (assignRoleToUser twoRoleStore "u3" "banana_role" = (false, twoRoleStore)) ∧
    ((assignRoleToUser twoRoleStore "u3" "roleA") = (true, twoRoleStore)) :=
  ⟨(assignRole_idempotent twoRoleStore "u3" "missing_role").1 (Or.inr (by decide)),
   (assignRole_idempotent twoRoleStore "u3" "banana_role").1 (Or.inr (by decide)),
   (assignRole_idempotent twoRoleStore "u3" "roleA").2.1
     ⟨"u3", "u3@x.com", "U Three", "pw", "", true, [wRoleA, wRoleB]⟩ wRoleA
     (by decide) (by decide) (by decide)⟩

/-- C7: `removeRoleFromUser` returns `false` leaving the store unchanged when
    the user is missing or holds no role of that name; when the user holds
    such a role it returns `true` and the saved user's role set is exactly the
    old one with every role of that name removed. -/
theorem removeRole_spec (s : Store) (userId roleName : String) :
    (findUserById s userId = none →
      removeRoleFromUser s userId roleName = (false, s)) ∧
    (∀ u, findUserById s userId = some u →
      u.role.any (fun r => r.name == roleName) = false →
      removeRoleFromUser s userId roleName = (false, s)) ∧
    (∀ u, findUserById s userId = some u →
      u.role.any (fun r => r.name == roleName) = true →
      (removeRoleFromUser s userId roleName).1 = true ∧
      ∃ u', findUserById (removeRoleFromUser s userId roleName).2 userId = some u' ∧
        u'.role = u.role.filter (fun r => r.name != roleName) ∧
        u'.role.any (fun r => r.name == roleName) = false) := by
  refine ⟨?_, ?_, ?_⟩
  · intro h
    simp [removeRoleFromUser, h]
  · intro u hu hany
    have hself : u.role.filter (fun r => r.name != roleName) = u.role := by
      refine List.filter_eq_self.mpr ?_
      intro a ha
      have := List.any_eq_false.mp hany a ha
      simpa using this
    simp [removeRoleFromUser, hu, hself]
  · intro u hu hany
    have hlt : (u.role.filter (fun r => r.name != roleName)).length < u.role.length := by
      refine List.length_filter_lt_length_iff_exists.mpr ?_
      obtain ⟨r, hr, hpr⟩ := List.any_eq_true.mp hany
      exact ⟨r, hr, by simpa using hpr⟩
    have h1 : removeRoleFromUser s userId roleName =
        (true, { s with users :=
          (saveUser s.users { u with role := u.role.filter (fun r => r.name != roleName) }) }) := by
      simp [removeRoleFromUser, hu, hlt]
    refine ⟨by rw [h1], ⟨{ u with role := u.role.filter (fun r => r.name != roleName) },
      ?_, rfl, ?_⟩⟩
    · rw [h1]
      exact find?_saveUser s.users u _ userId hu rfl
    · refine List.any_eq_false.mpr ?_
      intro r hr
      have := (List.mem_filter.mp hr).2
      simpa using this

/-- Witness for C7: removing a role the user never held fails and leaves the
    store unchanged; removing a held role succeeds. -/
theorem removeRole_spec_witness :
    (removeRoleFromUser twoRoleStore "ghost" "roleA" = (false, twoRoleStore)) ∧
    (removeRoleFromUser twoRoleStore "u3" "banana_role" = (false, twoRoleStore)) ∧
    (removeRoleFromUser twoRoleStore "u3" "roleA").1 = true :=
  ⟨(removeRole_spec twoRoleStore "ghost" "roleA").1 (by decide),
   (removeRole_spec twoRoleStore "u3" "banana_role").2.1
     ⟨"u3", "u3@x.com", "U Three", "pw", "", true, [wRoleA, wRoleB]⟩
     (by decide) (by decide),
   ((removeRole_spec twoRoleStore "u3" "roleA").2.2
     ⟨"u3", "u3@x.com", "U Three", "pw", "", true, [wRoleA, wRoleB]⟩
     (by decide) (by decide)).1⟩

/-- A concrete stand-in for one bcrypt run (the seeder only hashes when it
    creates a sample user). -/
def sampleHash : String → String := fun s => "$2a$10$" ++ s

/-- The store state after the permission and role phases of a first seeding
    of the empty database. -/
def seededCatalog : Store :=
  (seedRolesPhase (seedPermissionsPhase emptyStore).2 (seedPermissionsPhase emptyStore).1).1

/-- The `createdPermissions` array a re-seeding run assembles: every catalog
    entry is found in the already-seeded permissions table. -/
def reseedCreatedPermissions : List Permission :=
  permissionsData.map (fun pd =>
    (seededCatalog.permissions.find? (fun p => p.name == pd.name)).getD ⟨"", "", ""⟩)

/-- The user phase never touches the roles table. -/
lemma seedUserStep_roles (h : String → String) (cr : List Role) (s : Store)
    (ud : UserSeed) : (seedUserStep h cr s ud).roles = s.roles := by
  unfold seedUserStep
  split <;> rfl

/-- The user phase never touches the permissions table. -/
lemma seedUserStep_permissions (h : String → String) (cr : List Role) (s : Store)
    (ud : UserSeed) : (seedUserStep h cr s ud).permissions = s.permissions := by
  unfold seedUserStep
  split <;> rfl

/-- Folding the user phase never touches the roles table. -/
lemma usersFold_roles (h : String → String) (cr : List Role) :
    ∀ (l : List UserSeed) (s : Store),
      (l.foldl (seedUserStep h cr) s).roles = s.roles
  | [], _ => rfl
  | ud :: l, s => by
    rw [List.foldl_cons, usersFold_roles h cr l _, seedUserStep_roles]

/-- Folding the user phase never touches the permissions table. -/
lemma usersFold_permissions (h : String → String) (cr : List Role) :
    ∀ (l : List UserSeed) (s : Store),
      (l.foldl (seedUserStep h cr) s).permissions = s.permissions
  | [], _ => rfl
  | ud :: l, s => by
    rw [List.foldl_cons, usersFold_permissions h cr l _, seedUserStep_permissions]

/-- When every permission of the catalog slice is already present, the
    permission phase leaves the store untouched and merely collects the found
    rows. -/
lemma permFold_all_found :
    ∀ (data : List PermSeed) (s : Store) (c : List Permission),
      data.all (fun pd =>
        (s.permissions.find? (fun p => p.name == pd.name)).isSome) = true →
      (data.foldl seedPermissionStep (s, c)).1 = s ∧
      (data.foldl seedPermissionStep (s, c)).2 =
        c ++ data.map (fun pd =>
          (s.permissions.find? (fun p => p.name == pd.name)).getD ⟨"", "", ""⟩) := by
  intro data
  induction data with
  | nil =>
    intro s c _
    exact ⟨rfl, by simp⟩
  | cons pd data ih =>
    intro s c h
    rw [List.all_cons, Bool.and_eq_true] at h
    obtain ⟨h1, h2⟩ := h
    obtain ⟨perm, hperm⟩ := Option.isSome_iff_exists.mp h1
    have hstep : seedPermissionStep (s, c) pd = (s, c ++ [perm]) := by
      simp [seedPermissionStep, hperm]
    rw [List.foldl_cons, hstep]
    obtain ⟨ha, hb⟩ := ih s (c ++ [perm]) h2
    refine ⟨ha, ?_⟩
    rw [hb, List.map_cons, hperm]
    simp

/-- When every role of the catalog slice is already present with exactly the
    freshly computed permission set (and role ids are unambiguous), the role
    phase leaves the store untouched. -/
lemma roleFold_identity :
    ∀ (data : List RoleSeed) (cp : List Permission) (s : Store) (c : List Role),
      data.all (fun rd =>
        match s.roles.find? (fun r => r.name == rd.name) with
        | some role =>
          role.permissions == cp.filter rd.pick &&
            s.roles.all (fun r => !(r.id == role.id) || r == role)
        | none => false) = true →
      (data.foldl (seedRoleStep cp) (s, c)).1 = s := by
  intro data
  induction data with
  | nil =>
    intro cp s c _
    rfl
  | cons rd data ih =>
    intro cp s c h
    rw [List.all_cons, Bool.and_eq_true] at h
    obtain ⟨h1, h2⟩ := h
    cases hfind : s.roles.find? (fun r => r.name == rd.name) with
    | none =>
      rw [hfind] at h1
      exact absurd h1 (by simp)
    | some role =>
      rw [hfind] at h1
      rw [Bool.and_eq_true] at h1
      obtain ⟨hp, hq⟩ := h1
      have hperm : role.permissions = cp.filter rd.pick := by simpa using hp
      have hrole' : ({ role with permissions := cp.filter rd.pick } : Role) = role := by
        rw [← hperm]
      have hmap : s.roles.map
          (fun r => if r.id == role.id then
            ({ role with permissions := cp.filter rd.pick } : Role) else r) = s.roles := by
        rw [hrole']
        have hpt : ∀ r ∈ s.roles, (if r.id == role.id then role else r) = r := by
          intro r hr
          by_cases hid : (r.id == role.id) = true
          · have hru := List.all_eq_true.mp hq r hr
            rw [hid] at hru
            simp only [Bool.not_true, Bool.false_or] at hru
            rw [if_pos hid]
            exact (eq_of_beq hru).symm
          · rw [if_neg hid]
        rw [List.map_congr_left hpt, List.map_id']
      have hstep : seedRoleStep cp (s, c) rd =
          (s, c ++ [{ role with permissions := cp.filter rd.pick }]) := by
        simp only [seedRoleStep, hfind]
        rw [hmap]
      rw [List.foldl_cons, hstep]
      exact ih cp s _ h2

/-- The user phase of the seeder never touches the roles table. -/
lemma seedUsersPhase_roles (h : String → String) (cr : List Role) (s : Store) :
    (seedUsersPhase h cr s).roles = s.roles :=
  usersFold_roles h cr usersData s

/-- The user phase of the seeder never touches the permissions table. -/
lemma seedUsersPhase_permissions (h : String → String) (cr : List Role)
    (s : Store) : (seedUsersPhase h cr s).permissions = s.permissions :=
  usersFold_permissions h cr usersData s

/-- Stores with the same roles table answer `getRolePermissions` alike. -/
lemma getRolePermissions_congr (s t : Store) (n : String)
    (h : s.roles = t.roles) : getRolePermissions s n = getRolePermissions t n := by
  unfold getRolePermissions findRoleByName
  rw [h]

/-- A pre-seeded store whose `admin` role carries a stale permission that the
    current catalog no longer grants. -/
def staleAdminStore : Store :=
  ⟨[], [⟨"r-old", "admin", "old admin", [⟨"p-old", "stale:perm", "gone"⟩]⟩],
   [⟨"p-old", "stale:perm", "gone"⟩], 0⟩

set_option maxRecDepth 100000 in
/-- C8: re-running `seedRolesAndPermissions` right after a first run changes
    neither the roles table nor the permissions table (for any bcrypt
    outcomes of the two runs), and with a fixed hash the whole store is
    unchanged; the seeded store has exactly one `admin` role row, no
    duplicate role or permission names, the `admin` permission set is the
    same after both runs, and re-seeding a store whose `admin` role carried a
    stale permission overwrites the set, dropping the stale entry. -/
theorem seed_idempotent (f g : String → String) :
    (seedRolesAndPermissions f (seedRolesAndPermissions g emptyStore)).roles =
      (seedRolesAndPermissions g emptyStore).roles ∧
    (seedRolesAndPermissions f (seedRolesAndPermissions g emptyStore)).permissions =
      (seedRolesAndPermissions g emptyStore).permissions ∧
    getRolePermissions (seedRolesAndPermissions f (seedRolesAndPermissions g emptyStore))
        "admin" =
      getRolePermissions (seedRolesAndPermissions g emptyStore) "admin" ∧
    ((seedRolesAndPermissions g emptyStore).roles.filter
        (fun r => r.name == "admin")).length = 1 ∧
    ((seedRolesAndPermissions g emptyStore).roles.map Role.name).Nodup ∧
    ((seedRolesAndPermissions g emptyStore).permissions.map Permission.name).Nodup ∧
    seedRolesAndPermissions sampleHash (seedRolesAndPermissions sampleHash emptyStore) =
      seedRolesAndPermissions sampleHash emptyStore ∧
    getRolePermissions (seedRolesAndPermissions sampleHash staleAdminStore) "admin" =
      getRolePermissions (seedRolesAndPermissions sampleHash emptyStore) "admin" ∧
    "stale:perm" ∉ getRolePermissions (seedRolesAndPermissions sampleHash staleAdminStore)
      "admin" := by
  have hrun1 : seedRolesAndPermissions g emptyStore =
      seedUsersPhase g
        (seedRolesPhase (seedPermissionsPhase emptyStore).2
          (seedPermissionsPhase emptyStore).1).2
        seededCatalog := rfl
  have hrg : (seedRolesAndPermissions g emptyStore).roles = seededCatalog.roles := by
    rw [hrun1]
    exact seedUsersPhase_roles g _ _
  have hpg : (seedRolesAndPermissions g emptyStore).permissions =
      seededCatalog.permissions := by
    rw [hrun1]
    exact seedUsersPhase_permissions g _ _
  have hall : permissionsData.all (fun pd =>
      ((seedRolesAndPermissions g emptyStore).permissions.find?
        (fun p => p.name == pd.name)).isSome) = true := by
    rw [hpg]
    decide
  have hperm := permFold_all_found permissionsData
    (seedRolesAndPermissions g emptyStore) [] hall
  have hA1 : (seedPermissionsPhase (seedRolesAndPermissions g emptyStore)).1 =
      seedRolesAndPermissions g emptyStore := hperm.1
  have hA2 : (seedPermissionsPhase (seedRolesAndPermissions g emptyStore)).2 =
      reseedCreatedPermissions := by
    have h2 := hperm.2
    rw [List.nil_append, hpg] at h2
    exact h2
  have hfix : rolesData.all (fun rd =>
      match (seedRolesAndPermissions g emptyStore).roles.find?
          (fun r => r.name == rd.name) with
      | some role =>
        role.permissions == reseedCreatedPermissions.filter rd.pick &&
          (seedRolesAndPermissions g emptyStore).roles.all
            (fun r => !(r.id == role.id) || r == role)
      | none => false) = true := by
    rw [hrg]
    decide
  have hB1 : (seedRolesPhase
      (seedPermissionsPhase (seedRolesAndPermissions g emptyStore)).2
      (seedPermissionsPhase (seedRolesAndPermissions g emptyStore)).1).1 =
      seedRolesAndPermissions g emptyStore := by
    rw [hA1, hA2]
    exact roleFold_identity rolesData reseedCreatedPermissions _ [] hfix
  have hrun2 : seedRolesAndPermissions f (seedRolesAndPermissions g emptyStore) =
      seedUsersPhase f (seedRolesPhase
        (seedPermissionsPhase (seedRolesAndPermissions g emptyStore)).2
        (seedPermissionsPhase (seedRolesAndPermissions g emptyStore)).1).2
        (seedRolesAndPermissions g emptyStore) := by
    show seedUsersPhase f (seedRolesPhase
        (seedPermissionsPhase (seedRolesAndPermissions g emptyStore)).2
        (seedPermissionsPhase (seedRolesAndPermissions g emptyStore)).1).2
        (seedRolesPhase
          (seedPermissionsPhase (seedRolesAndPermissions g emptyStore)).2
          (seedPermissionsPhase (seedRolesAndPermissions g emptyStore)).1).1 = _
    rw [hB1]
  refine ⟨?_, ?_, ?_, ?_, ?_, ?_, ?_, ?_, ?_⟩
  · rw [hrun2]
    exact seedUsersPhase_roles f _ _
  · rw [hrun2]
    exact seedUsersPhase_permissions f _ _
  · refine getRolePermissions_congr _ _ "admin" ?_
    rw [hrun2]
    exact seedUsersPhase_roles f _ _
  · rw [hrg]
    decide
  · rw [hrg]
    decide
  · rw [hpg]
    decide
  · decide
  · decide
  · decide

/-- Witness for C8 at the concrete stand-in hash for both runs. -/
theorem seed_idempotent_witness :
    (seedRolesAndPermissions sampleHash (seedRolesAndPermissions sampleHash emptyStore)).roles =
      (seedRolesAndPermissions sampleHash emptyStore).roles ∧
    ((seedRolesAndPermissions sampleHash emptyStore).roles.filter
        (fun r => r.name == "admin")).length = 1 :=
  ⟨(seed_idempotent sampleHash sampleHash).1,
   (seed_idempotent sampleHash sampleHash).2.2.2.1⟩

/-- The store produced by seeding the empty database with the concrete
    stand-in hash. -/
def seededStore : Store := seedRolesAndPermissions sampleHash emptyStore

set_option maxRecDepth 100000 in
/-- C9: the seeded sample member (`member@trello.com`, row id `uuid-64`)
    holds exactly the seeded `board_member` role; `userHasPermission` denies
    `boards:delete` and grants `cards:create`; the seeded `board_member`
    permission set contains every `cards:` permission of the catalog but, of
    the `boards:` permissions, only `boards:read`. -/
theorem boardMember_scenario :
    (findUserById seededStore "uuid-64").map (fun u => u.email) =
      some "member@trello.com" ∧
    (findUserById seededStore "uuid-64").map (fun u => u.role.map Role.name) =
      some ["board_member"] ∧
    userHasPermission seededStore "uuid-64" "boards:delete" = false ∧
    userHasPermission seededStore "uuid-64" "cards:create" = true ∧
    (seededStore.permissions.filter (fun p => jsIncludes p.name "cards:")).all
      (fun p => (getRolePermissions seededStore "board_member").contains p.name) = true ∧
    (getRolePermissions seededStore "board_member").filter
      (fun n => jsIncludes n "boards:") = ["boards:read"] :=
  ⟨by decide, by decide, by decide, by decide, by decide, by decide⟩

end RBAC
